import Mathlib

/-!
Verification of the challenger core (package `core` of the chronicleprotocol
challenger repository) against its natural-language specification.

The Go sources are embedded shallowly:

* `big.Int` block numbers and timestamps become `Int`;
* addresses, hashes and opaque byte payloads become `Nat` / `List Nat`
  (their values are never interpreted by the code under study);
* `(T, error)` results become `Except String T`, and nilable pointers
  become `Option`;
* the RPC provider and the wall clock are passed in explicitly as data
  (an environment record), so every function is pure and executable.
-/

namespace ChallengerCore

open scoped List

/-- Schnorr bundle carried by an `OpPoked` event: `(bytes32, address, bytes)`
(`SchnorrData` in the Go sources). The components are opaque to the
challenger, so they are modelled as plain numbers / byte lists. -/
structure SchnorrData where
  signature : Nat
  commitment : Nat
  signersBlob : List Nat
  deriving DecidableEq, Repr

/-- Poke payload `(uint128 val, uint32 age)` (`PokeData` in the Go sources). -/
structure PokeData where
  val : Nat
  age : Nat
  deriving DecidableEq, Repr

/-- Event `OpPokedEvent` from `core/events.go`: block number (`*big.Int`, always set
on decoded events), caller and opFeed addresses, Schnorr bundle and poke
payload. -/
structure OpPokedEvent where
  blockNumber : Int
  caller : Nat
  opFeed : Nat
  schnorr : SchnorrData
  pokeData : PokeData
  deriving DecidableEq, Repr

/-- Event `OpPokeChallengedSuccessfullyEvent` from `core/events.go`. -/
structure OpPokeChallengedSuccessfullyEvent where
  blockNumber : Int
  challenger : Nat
  deriving DecidableEq, Repr

/-- The `SortableEvent` interface of `core/events.go`: either of the two event
kinds, with `GetBlockNumber` and `Name` projections. -/
inductive SortableEvent where
  | poked (p : OpPokedEvent)
  | challenged (c : OpPokeChallengedSuccessfullyEvent)
  deriving DecidableEq, Repr

namespace SortableEvent

/-- Projection `GetBlockNumber()` of `core/events.go`. -/
def GetBlockNumber : SortableEvent → Int
  | .poked p => p.blockNumber
  | .challenged c => c.blockNumber

/-- Projection `Name()` of `core/events.go`: `"OpPoked"` for pokes and
`"OpPokeChallengedSuccessfullyEvent"` for successful challenges. -/
def Name : SortableEvent → String
  | .poked _ => "OpPoked"
  | .challenged _ => "OpPokeChallengedSuccessfullyEvent"

end SortableEvent

/-- Comparison used by the `sort.Slice` call in `PickUnchallengedPokes`
(`core/challenger.go` line 294): ascending block number. The Go call sorts
with the strict order `GetBlockNumber i < GetBlockNumber j`; the slice is
sorted with the corresponding non-strict key order `≤`. -/
def eventLe (a b : SortableEvent) : Bool :=
  a.GetBlockNumber ≤ b.GetBlockNumber

/-- The `sort.Slice(sortable, ...)` step of `PickUnchallengedPokes`.
`sort.Slice` guarantees only a block-key ascending permutation of its input,
not stability; this executable model is `List.mergeSort`, which satisfies
that contract and moreover coincides extensionally with Go's sort on every
slice shorter than 12 elements (where Go runs its stable insertion sort) —
in particular on every concrete slice evaluated in this file. Theorems about
arbitrary inputs whose truth could depend on tie-breaking do not use this
model's stability: they quantify over every block-sorted permutation of the
merge instead. -/
def sortEvents (l : List SortableEvent) : List SortableEvent :=
  l.mergeSort eventLe

/-- The `for i, event := range sortable` loop of `PickUnchallengedPokes`
(`core/challenger.go` lines 297-311), written on suffixes: at index `i` the
loop sees the suffix `event :: rest`, `i == len(sortable)-1` is `rest = []`,
and `len(sortable)-1 > i+1` (at least two elements follow `i`) is
`rest.tail ≠ []`. A successful challenge is never emitted; a poke is skipped
exactly when the next element is a successful challenge that is not the last
element of the slice. -/
def pickLoop : List SortableEvent → List OpPokedEvent
  | [] => []
  | .challenged _ :: rest => pickLoop rest
  | [.poked p] => [p]
  | .poked p :: e :: rest =>
      if 0 < rest.length ∧ e.Name = "OpPokeChallengedSuccessfullyEvent" then
        pickLoop (e :: rest)
      else
        p :: pickLoop (e :: rest)

/-- Function `PickUnchallengedPokes` from `core/challenger.go` (lines 272-314):
returns the pokes unchanged when either list is empty; for a single poke,
drops it when some successful challenge has a strictly smaller block number;
otherwise merges pokes (first) and successful challenges (after), sorts by
block number and walks the merged slice with `pickLoop`. -/
def PickUnchallengedPokes (pokes : List OpPokedEvent)
    (challenges : List OpPokeChallengedSuccessfullyEvent) : List OpPokedEvent :=
  if pokes.length = 0 ∨ challenges.length = 0 then
    pokes
  else
    match pokes with
    | [p] =>
        if challenges.any (fun c => decide (c.blockNumber < p.blockNumber)) then []
        else [p]
    | _ =>
        pickLoop (sortEvents
          (pokes.map SortableEvent.poked ++ challenges.map SortableEvent.challenged))

/-- Test poke at block `b` with inert payload fields. -/
def pokeAt (b : Int) : OpPokedEvent :=
  { blockNumber := b, caller := 0, opFeed := 0
    schnorr := ⟨0, 0, []⟩, pokeData := ⟨0, 0⟩ }

/-- Test successful challenge at block `b`. -/
def challAt (b : Int) : OpPokeChallengedSuccessfullyEvent :=
  { blockNumber := b, challenger := 0 }

/-- The Ethereum slot cadence constant `slotPeriodInSec = 12` of
`core/challenger.go`. -/
def slotPeriodInSec : Nat := 12

/-- Function `getEarliestBlockNumber` from `core/challenger.go` (lines 65-73):
`blocksPerPeriod = period / 12` (integer division of the `uint16` period),
and the result is `0` when `lastBlock < blocksPerPeriod`, otherwise
`lastBlock - blocksPerPeriod`. Block numbers are `*big.Int`, hence `Int`. -/
def getEarliestBlockNumber (lastBlock : Int) (period : Nat) : Int :=
  let blocksPerPeriod : Nat := period / slotPeriodInSec
  if lastBlock < (blocksPerPeriod : Int) then 0
  else lastBlock - (blocksPerPeriod : Int)

/-- Function `getFromBlockNumber` from `core/challenger.go` (lines 75-86): returns the
cursor `lastProcessedBlock` when it is set; otherwise fails when the latest
block number is nil, and computes the earliest lookback block otherwise. -/
def getFromBlockNumber (lastProcessedBlock : Option Int)
    (latestBlockNumber : Option Int) (period : Nat) : Except String Int :=
  match lastProcessedBlock with
  | some b => .ok b
  | none =>
      match latestBlockNumber with
      | none => .error "latest block number is nil"
      | some latest => .ok (getEarliestBlockNumber latest period)

/-- The part of `types.Block` the challenger reads: the block timestamp,
in seconds (`block.Timestamp` compared with `time.Time` values). -/
structure Block where
  timestamp : Int
  deriving DecidableEq, Repr

/-- The provider surface consumed by `isPokeChallengeable`
(`IScribeOptimisticProvider.BlockByNumber` and `IsPokeSignatureValid`),
modelled as response data: what each RPC interaction would return. -/
structure ProviderEnv where
  blockByNumber : Int → Except String Block
  isPokeSignatureValid : OpPokedEvent → Except String Bool

/-- The moment `challengeableSince = time.Now().Add(-time.Second * period)`
computed in `isPokeChallengeable` (`core/challenger.go` line 102), with the
clock carried explicitly in seconds. -/
def challengeableSince (now : Int) (challengePeriod : Nat) : Int :=
  now - (challengePeriod : Int)

/-- The time test of `isPokeChallengeable` (`core/challenger.go` line 105):
the poke's block passes iff its timestamp is NOT before `challengeableSince`,
i.e. iff `blockTimestamp ≥ now - challengePeriod`. -/
def timeCheckPasses (now blockTimestamp : Int) (challengePeriod : Nat) : Bool :=
  !(decide (blockTimestamp < challengeableSince now challengePeriod))

/-- Modelled from the spec (section 3, invariants): the *two-sided*
time-challengeability predicate `now ≥ block_timestamp AND
now < block_timestamp + challenge_period`. Stated for comparison with the
one-sided test the code performs (`timeCheckPasses`). -/
def timeChallengeableSpec (now blockTimestamp : Int) (challengePeriod : Nat) : Prop :=
  now ≥ blockTimestamp ∧ now < blockTimestamp + (challengePeriod : Int)

instance (now ts : Int) (p : Nat) : Decidable (timeChallengeableSpec now ts p) := by
  unfold timeChallengeableSpec
  infer_instance

/-- Predicate `isPokeChallengeable` from `core/challenger.go` (lines 88-125). The Go
receiver's provider and the wall clock are explicit arguments. A nil poke is
`none` (decoded events always carry a block number, so the separate
`poke.BlockNumber == nil` guard of line 89 is subsumed by the non-nullable
`blockNumber` field). On a block-fetch error, a failed time test, or a
signature-check error the poke is not challengeable; otherwise it is
challengeable exactly when the signature is not valid. -/
def isPokeChallengeable (env : ProviderEnv) (now : Int)
    (poke : Option OpPokedEvent) (challengePeriod : Nat) : Bool :=
  match poke with
  | none => false
  | some p =>
      match env.blockByNumber p.blockNumber with
      | .error _ => false
      | .ok block =>
          if block.timestamp < challengeableSince now challengePeriod then false
          else
            match env.isPokeSignatureValid p with
            | .error _ => false
            | .ok valid => !valid

/-- The per-tick provider responses consumed by `executeTick`
(`core/challenger.go` lines 154-213): the latest block number (`*big.Int`,
nilable even on success), the challenge period, and the two range queries,
plus the data `isPokeChallengeable` needs for the candidates. -/
structure TickEnv where
  blockNumber : Except String (Option Int)
  getChallengePeriod : Except String Nat
  getPokes : Int → Option Int → Except String (List OpPokedEvent)
  getSuccessfulChallenges : Int → Option Int → Except String (List OpPokeChallengedSuccessfullyEvent)
  provider : ProviderEnv
  now : Int

/-- Function `executeTick` from `core/challenger.go` (lines 154-213), as a transition
on the `lastProcessedBlock` cursor. The first component is the cursor after
the tick; the second is the tick's outcome, with the list of pokes handed to
`SpawnChallenge` on success. Failures before the `GetPokes` call leave the
cursor untouched; the cursor is set to the latest block number right after
the poke fetch, *before* `GetSuccessfulChallenges`, so a failure of that
fetch still leaves the cursor advanced. -/
def executeTick (env : TickEnv) (lastProcessedBlock : Option Int) :
    Option Int × Except String (List OpPokedEvent) :=
  match env.blockNumber with
  | .error e => (lastProcessedBlock, .error ("failed to get latest block number with error: " ++ e))
  | .ok latestBlockNumber =>
      match env.getChallengePeriod with
      | .error e => (lastProcessedBlock, .error ("failed to get challenge period with error: " ++ e))
      | .ok period =>
          match getFromBlockNumber lastProcessedBlock latestBlockNumber period with
          | .error e => (lastProcessedBlock, .error ("failed to get blocknumber from period: " ++ e))
          | .ok fromBlockNumber =>
              match env.getPokes fromBlockNumber latestBlockNumber with
              | .error e => (lastProcessedBlock, .error ("failed to get OpPoked events with error: " ++ e))
              | .ok pokeLogs =>
                  -- `c.lastProcessedBlock = latestBlockNumber` (line 181)
                  let cursor := latestBlockNumber
                  if pokeLogs.length = 0 then (cursor, .ok [])
                  else
                    match env.getSuccessfulChallenges fromBlockNumber latestBlockNumber with
                    | .error e => (cursor, .error ("failed to get OpPokeChallengedSuccessfully events with error: " ++ e))
                    | .ok challenges =>
                        let pokes := PickUnchallengedPokes pokeLogs challenges
                        (cursor, .ok (pokes.filter
                          (fun poke => isPokeChallengeable env.provider env.now (some poke) period)))

/-- The part of `types.TransactionReceipt` that `WaitForTxConfirmation`
inspects: the nilable `Status` pointer and the transaction hash
(`IsZero()` becomes `= 0`), plus the block hash reported on confirmation. -/
structure TransactionReceipt where
  status : Option Nat
  transactionHash : Nat
  blockHash : Nat
  deriving DecidableEq, Repr

/-- A receipt is accepted by the polling loop of `WaitForTxConfirmation` when
it is mined: non-nil status and non-zero transaction hash. -/
def receiptConfirmed (receipt : TransactionReceipt) : Bool :=
  !(decide (receipt.status = none) || decide (receipt.transactionHash = 0))

/-- The `for { select { ... } }` polling loop of `WaitForTxConfirmation`
(`core/utils.go` lines 33-55). The context deadline is modelled as the number
of 12-second ticker fires that happen before the timeout expires (`fuel`);
`polls i` is what the i-th `GetTransactionReceipt` call returns. A fetch
error, a nil receipt, or a receipt that is not yet mined are all retried;
when the deadline wins the race the loop returns the timeout error. The Go
pair `(*types.TransactionReceipt, error)` is kept as an explicit pair of
options. -/
def waitLoop (polls : Nat → Except String (Option TransactionReceipt)) :
    Nat → Nat → Option TransactionReceipt × Option String
  | 0, _ => (none, some "failed to wait for transaction confirmation")
  | fuel + 1, i =>
      match polls i with
      | .error _ => waitLoop polls fuel (i + 1)
      | .ok none => waitLoop polls fuel (i + 1)
      | .ok (some receipt) =>
          if receipt.status = none ∨ receipt.transactionHash = 0 then
            waitLoop polls fuel (i + 1)
          else
            (some receipt, none)

/-- Function `WaitForTxConfirmation` from `core/utils.go` (lines 13-56). The client is
its receipt-polling capability (`none` models a nil client), `txHash` is the
nilable hash pointer, and `fuel` is the number of ticker fires before the
context deadline. -/
def WaitForTxConfirmation
    (client : Option (Nat → Except String (Option TransactionReceipt)))
    (txHash : Option Nat) (fuel : Nat) :
    Option TransactionReceipt × Option String :=
  match client with
  | none => (none, some "ethereum client not set")
  | some polls =>
      match txHash with
      | none => (none, some "tx hash is nil")
      | some _ => waitLoop polls fuel 0

/-- One RPC client as consumed by the challenge submission paths of
`core/scribe_optimistic_provider.go`: the outcome of `SendTransaction` for
the prepared `opChallenge` transaction (hash and signed transaction, modelled
as numbers), and the receipt-polling behaviour handed to
`WaitForTxConfirmation` together with the tick budget of the 5-minute
confirmation timeout. -/
structure RPCClientEnv where
  sendTransaction : Except String (Nat × Nat)
  getTransactionReceipt : Nat → Except String (Option TransactionReceipt)
  confirmTicks : Nat

/-- Which client a submission went through; used to state how often each
path is attempted. -/
inductive ClientKind where
  | flashbots
  | mainnet
  deriving DecidableEq, Repr

/-- Function `challengePokeUsingFlashbots` from `core/scribe_optimistic_provider.go`
(lines 295-339): fails when no flashbots client is configured or when ABI
encoding of the `opChallenge` args fails; otherwise sends through the
flashbots client and waits for confirmation, failing on a send error or a
confirmation error/timeout. -/
def challengePokeUsingFlashbots (flashbotClient : Option RPCClientEnv)
    (encodeOpChallenge : Except String (List Nat)) :
    Except String (Nat × Nat) :=
  match flashbotClient with
  | none => .error "flashbot client is not provided"
  | some cl =>
      match encodeOpChallenge with
      | .error e => .error ("failed to encode opChallenge args: " ++ e)
      | .ok _ =>
          match cl.sendTransaction with
          | .error e => .error ("failed to send challenge transaction: " ++ e)
          | .ok (hash, tx) =>
              match WaitForTxConfirmation (some cl.getTransactionReceipt)
                  (some hash) cl.confirmTicks with
              | (_, some e) => .error ("failed to wait for challenge transaction confirmation: " ++ e)
              | (_, none) => .ok (hash, tx)

/-- Function `challengePokeUsingMainnet` from `core/scribe_optimistic_provider.go`
(lines 257-293): same shape as the flashbots path, on the public client
(which is always present). -/
def challengePokeUsingMainnet (client : RPCClientEnv)
    (encodeOpChallenge : Except String (List Nat)) :
    Except String (Nat × Nat) :=
  match encodeOpChallenge with
  | .error e => .error ("failed to encode opChallenge args: " ++ e)
  | .ok _ =>
      match client.sendTransaction with
      | .error e => .error ("failed to send challenge transaction: " ++ e)
      | .ok (hash, tx) =>
          match WaitForTxConfirmation (some client.getTransactionReceipt)
              (some hash) client.confirmTicks with
          | (_, some e) => .error ("failed to wait for challenge transaction confirmation on mainnet: " ++ e)
          | (_, none) => .ok (hash, tx)

/-- Function `ChallengePoke` from `core/scribe_optimistic_provider.go` (lines
344-370), instrumented with the ordered list of clients it submits through:
with no flashbots client it goes straight to the mainnet path; otherwise it
tries flashbots first and falls back to the mainnet path exactly when that
attempt returns an error, the mainnet result being final either way. -/
def ChallengePokeWithTrace (client : RPCClientEnv)
    (flashbotClient : Option RPCClientEnv)
    (encodeOpChallenge : Except String (List Nat)) :
    Except String (Nat × Nat) × List ClientKind :=
  match flashbotClient with
  | none => (challengePokeUsingMainnet client encodeOpChallenge, [.mainnet])
  | some _ =>
      match challengePokeUsingFlashbots flashbotClient encodeOpChallenge with
      | .ok r => (.ok r, [.flashbots])
      | .error _ =>
          (challengePokeUsingMainnet client encodeOpChallenge, [.flashbots, .mainnet])

/-- The result component of `ChallengePoke`. -/
def ChallengePoke (client : RPCClientEnv) (flashbotClient : Option RPCClientEnv)
    (encodeOpChallenge : Except String (List Nat)) : Except String (Nat × Nat) :=
  (ChallengePokeWithTrace client flashbotClient encodeOpChallenge).1

/-! Theorems. -/

/-- Unfolding equation for `getEarliestBlockNumber` with its local
`blocksPerPeriod` binding expanded. -/
theorem getEarliestBlockNumber_eq (lastBlock : Int) (period : Nat) :
    getEarliestBlockNumber lastBlock period
      = if lastBlock < ((period / slotPeriodInSec : Nat) : Int) then 0
        else lastBlock - ((period / slotPeriodInSec : Nat) : Int) := rfl

/-- C7: for every latest block number `≥ 0` and every challenge period, the
earliest lookback block is `≥ 0`; it is exactly `0` when
`latest < period / 12`, exactly `latest - period / 12` otherwise, and with no
seed cursor `getFromBlockNumber` returns exactly this value. -/
theorem C7_earliest_block_nonneg (latest : Int) (period : Nat)
    (h : 0 ≤ latest) :
    0 ≤ getEarliestBlockNumber latest period
    ∧ (latest < ((period / slotPeriodInSec : Nat) : Int) →
        getEarliestBlockNumber latest period = 0)
    ∧ (((period / slotPeriodInSec : Nat) : Int) ≤ latest →
        getEarliestBlockNumber latest period
          = latest - ((period / slotPeriodInSec : Nat) : Int))
    ∧ getFromBlockNumber none (some latest) period
        = .ok (getEarliestBlockNumber latest period) := by
  rw [getFromBlockNumber, getEarliestBlockNumber_eq]
  refine ⟨?_, ?_, ?_, rfl⟩
  · split <;> omega
  · intro hlt
    rw [if_pos hlt]
  · intro hge
    rw [if_neg (by omega)]

/-- Witness for C7 at `latest = 5`, `period = 600` (so `period / 12 = 50`
and the window clamps to block `0`). -/
theorem C7_witness :
    0 ≤ getEarliestBlockNumber 5 600 ∧ getEarliestBlockNumber 5 600 = 0 :=
  ⟨(C7_earliest_block_nonneg 5 600 (by decide)).1,
   (C7_earliest_block_nonneg 5 600 (by decide)).2.1 (by decide)⟩

/-- C5: with exactly one poke and a non-empty success list,
`PickUnchallengedPokes` returns the empty list when some success sits at a
strictly smaller block number, and returns the single poke unchanged when
every success is at an equal or larger block number. -/
theorem C5_single_poke_branch (p : OpPokedEvent)
    (cs : List OpPokeChallengedSuccessfullyEvent) (hne : cs ≠ []) :
    ((∃ c ∈ cs, c.blockNumber < p.blockNumber) →
        PickUnchallengedPokes [p] cs = [])
    ∧ ((∀ c ∈ cs, p.blockNumber ≤ c.blockNumber) →
        PickUnchallengedPokes [p] cs = [p]) := by
  have hlen : ¬([p].length = 0 ∨ cs.length = 0) := by
    simp [List.length_eq_zero, hne]
  constructor
  · rintro ⟨c, hc, hlt⟩
    unfold PickUnchallengedPokes
    rw [if_neg hlen]
    simp only [if_pos]
    rw [if_pos]
    exact List.any_eq_true.mpr ⟨c, hc, by simpa using hlt⟩
  · intro hall
    unfold PickUnchallengedPokes
    rw [if_neg hlen]
    simp only [if_pos]
    rw [if_neg]
    simp only [List.any_eq_true, not_exists, not_and]
    intro c hc
    simpa using hall c hc

/-- Witness for C5: one poke at block `60` against a stale success at block
`50` is dropped, and against a later success at block `70` is kept. -/
theorem C5_witness :
    PickUnchallengedPokes [pokeAt 60] [challAt 50] = []
    ∧ PickUnchallengedPokes [pokeAt 60] [challAt 70] = [pokeAt 60] :=
  ⟨(C5_single_poke_branch (pokeAt 60) [challAt 50] (by decide)).1
      ⟨challAt 50, by decide, by decide⟩,
   (C5_single_poke_branch (pokeAt 60) [challAt 70] (by decide)).2
      (by decide)⟩

/-- Provider responses used for the C3 counterexample: the poke's block has
timestamp `400` and its signature is invalid. -/
def envBoundary : ProviderEnv :=
  { blockByNumber := fun _ => .ok ⟨400⟩
    isPokeSignatureValid := fun _ => .ok false }

/-- C3 counterexample: with `now = 1000`, `challenge_period = 600` and
`block_timestamp = 400` we sit exactly on the boundary
`now = block_timestamp + challenge_period`, where the claimed two-sided
predicate is false; yet the implementation's time test passes and
`isPokeChallengeable` even reports the (invalid-signature) poke as
challengeable. So the implementation's check does not decide the two-sided
predicate. -/
theorem C3_counterexample :
    timeCheckPasses 1000 400 600 = true
    ∧ ¬ timeChallengeableSpec 1000 400 600
    ∧ isPokeChallengeable envBoundary 1000 (some (pokeAt 10)) 600 = true := by
  refine ⟨by decide, by decide, ?_⟩
  rfl

/-- C3 amended: the implementation's time test is exactly the one-sided
bound `now ≤ block_timestamp + challenge_period` (equivalently
`block_timestamp ≥ now − challenge_period`). It is implied by the two-sided
predicate but strictly weaker: it also passes at
`now = block_timestamp + challenge_period` and when `block_timestamp > now`.
When neither provider step errors, `isPokeChallengeable` is precisely this
time test conjoined with the negated signature validity. -/
theorem C3_time_check_one_sided (env : ProviderEnv) (now ts : Int)
    (period : Nat) (p : OpPokedEvent) (valid : Bool)
    (hb : env.blockByNumber p.blockNumber = .ok ⟨ts⟩)
    (hs : env.isPokeSignatureValid p = .ok valid) :
    isPokeChallengeable env now (some p) period
      = (timeCheckPasses now ts period && !valid)
    ∧ (timeCheckPasses now ts period = true ↔ now ≤ ts + (period : Int))
    ∧ (timeChallengeableSpec now ts period →
        timeCheckPasses now ts period = true) := by
  refine ⟨?_, ?_, ?_⟩
  · by_cases hlt : ts < challengeableSince now period
    · simp [isPokeChallengeable, timeCheckPasses, hb, hlt]
    · simp [isPokeChallengeable, timeCheckPasses, hb, hs, hlt]
  · unfold timeCheckPasses challengeableSince
    simp only [Bool.not_eq_true', decide_eq_false_iff_not, not_lt,
      Bool.not_eq_false, decide_eq_true_eq]
    omega
  · intro hspec
    unfold timeCheckPasses challengeableSince
    unfold timeChallengeableSpec at hspec
    simp only [Bool.not_eq_true', decide_eq_false_iff_not, not_lt]
    omega

/-- Witness for C3 amended, at the counterexample environment: the poke is
challengeable and the time test agrees with the one-sided bound. -/
theorem C3_witness :
    isPokeChallengeable envBoundary 1000 (some (pokeAt 10)) 600
      = (timeCheckPasses 1000 400 600 && !false)
    ∧ timeCheckPasses 1000 400 600 = true :=
  ⟨(C3_time_check_one_sided envBoundary 1000 400 600 (pokeAt 10) false
      rfl rfl).1,
   (C3_time_check_one_sided envBoundary 1000 400 600 (pokeAt 10) false
      rfl rfl).2.1.mpr (by decide)⟩

/-- C8: `isPokeChallengeable` returns `false` whenever the block lookup
errors or the signature check errors (regardless of the challenge window),
and when neither errors and the poke is inside the two-sided challenge
window it returns the negation of the signature validity. -/
theorem C8_error_handling (env : ProviderEnv) (now : Int)
    (p : OpPokedEvent) (period : Nat) :
    (∀ e, env.blockByNumber p.blockNumber = .error e →
        isPokeChallengeable env now (some p) period = false)
    ∧ (∀ e, env.isPokeSignatureValid p = .error e →
        isPokeChallengeable env now (some p) period = false)
    ∧ (∀ ts valid, env.blockByNumber p.blockNumber = .ok ⟨ts⟩ →
        env.isPokeSignatureValid p = .ok valid →
        timeChallengeableSpec now ts period →
        isPokeChallengeable env now (some p) period = !valid) := by
  refine ⟨?_, ?_, ?_⟩
  · intro e he
    simp [isPokeChallengeable, he]
  · intro e he
    match hb : env.blockByNumber p.blockNumber with
    | .error _ => simp [isPokeChallengeable, hb]
    | .ok block => simp [isPokeChallengeable, hb, he, ite_self]
  · intro ts valid hb hs hspec
    unfold timeChallengeableSpec at hspec
    have hlt : ¬(ts < challengeableSince now period) := by
      unfold challengeableSince
      omega
    simp [isPokeChallengeable, hb, hs, hlt]

/-- Provider responses whose block lookup always fails, for the C8 witness. -/
def envBlockErr : ProviderEnv :=
  { blockByNumber := fun _ => .error "boom"
    isPokeSignatureValid := fun _ => .ok true }

/-- Witness for C8: with a failing block lookup the poke is reported not
challengeable. -/
theorem C8_witness :
    isPokeChallengeable envBlockErr 1000 (some (pokeAt 10)) 600 = false :=
  (C8_error_handling envBlockErr 1000 (pokeAt 10) 600).1 "boom" rfl

unseal List.merge List.mergeSort in
/-- C1 evaluation at the failing input `pokes = [P@10, P@20]`,
`successes = [S@30]`: in the sorted merged list the success is the last
element and immediately follows `P@20`, yet `PickUnchallengedPokes` returns
`P@20` (the `len(sortable)-1 > i+1` guard skips a poke only when the success
after it is not the last element). The function's own doc comment — a
success after the poke and before the next poke means the poke needs no
challenge — and the claim both demand that `P@20` be excluded. -/
theorem C1_trailing_success_not_skipped :
    PickUnchallengedPokes [pokeAt 10, pokeAt 20] [challAt 30]
      = [pokeAt 10, pokeAt 20]
    ∧ PickUnchallengedPokes [pokeAt 10, pokeAt 20] [challAt 30]
      ≠ [pokeAt 10]
    ∧ (sortEvents ([pokeAt 10, pokeAt 20].map SortableEvent.poked
          ++ [challAt 30].map SortableEvent.challenged)).getLast?
      = some (.challenged (challAt 30)) := by
  decide

unseal List.merge List.mergeSort in
/-- C2: with pokes `[P@10, P@20]` and the same-block success `S@10` appended
after them in the merge, the stable block-key sort keeps `S@10` immediately
after `P@10`, which suppresses `P@10`; the function returns exactly
`[P@20]`. -/
theorem C2_same_block_stable_suppression :
    sortEvents ([pokeAt 10, pokeAt 20].map SortableEvent.poked
        ++ [challAt 10].map SortableEvent.challenged)
      = [.poked (pokeAt 10), .challenged (challAt 10), .poked (pokeAt 20)]
    ∧ PickUnchallengedPokes [pokeAt 10, pokeAt 20] [challAt 10]
      = [pokeAt 20] := by
  decide

/-- C9: with no flashbots client configured, `ChallengePoke` goes straight
to the mainnet path; with one configured, a successful flashbots submission
is returned as is, and any flashbots error (send failure or confirmation
timeout included, as the last conjunct shows) falls back to exactly one
mainnet attempt whose result is final. The mainnet client never appears more
than once in the submission trace. -/
theorem C9_fallback_once (client : RPCClientEnv)
    (flashbotClient : Option RPCClientEnv)
    (enc : Except String (List Nat)) :
    (flashbotClient = none →
        ChallengePokeWithTrace client flashbotClient enc
          = (challengePokeUsingMainnet client enc, [.mainnet]))
    ∧ (∀ r, challengePokeUsingFlashbots flashbotClient enc = .ok r →
        ChallengePokeWithTrace client flashbotClient enc
          = (.ok r, [.flashbots]))
    ∧ (∀ e, flashbotClient ≠ none →
        challengePokeUsingFlashbots flashbotClient enc = .error e →
        ChallengePokeWithTrace client flashbotClient enc
          = (challengePokeUsingMainnet client enc, [.flashbots, .mainnet]))
    ∧ (ChallengePokeWithTrace client flashbotClient enc).2.count .mainnet ≤ 1
    ∧ ChallengePoke client flashbotClient enc
        = (ChallengePokeWithTrace client flashbotClient enc).1
    ∧ (∀ cl args hash tx e2, flashbotClient = some cl → enc = .ok args →
        cl.sendTransaction = .ok (hash, tx) →
        (WaitForTxConfirmation (some cl.getTransactionReceipt) (some hash)
            cl.confirmTicks).2 = some e2 →
        challengePokeUsingFlashbots flashbotClient enc
          = .error ("failed to wait for challenge transaction confirmation: "
              ++ e2)) := by
  refine ⟨?_, ?_, ?_, ?_, rfl, ?_⟩
  · intro hnone
    subst hnone
    rfl
  · intro r hok
    cases flashbotClient with
    | none => simp [challengePokeUsingFlashbots] at hok
    | some cl => simp [ChallengePokeWithTrace, hok]
  · intro e hne herr
    cases flashbotClient with
    | none => exact absurd rfl hne
    | some cl => simp [ChallengePokeWithTrace, herr]
  · cases flashbotClient with
    | none => simp [ChallengePokeWithTrace]
    | some cl =>
        unfold ChallengePokeWithTrace
        match challengePokeUsingFlashbots (some cl) enc with
        | .ok r => simp
        | .error e => simp
  · intro cl args hash tx e2 hcl henc hsend hwait
    subst hcl
    subst henc
    rcases hW : WaitForTxConfirmation (some cl.getTransactionReceipt)
        (some hash) cl.confirmTicks with ⟨w1, w2⟩
    rw [hW] at hwait
    simp only at hwait
    simp [challengePokeUsingFlashbots, hsend, hW, hwait]

/-- A client for the C9 witness whose send fails. -/
def clientSendErr : RPCClientEnv :=
  { sendTransaction := .error "rejected"
    getTransactionReceipt := fun _ => .ok none
    confirmTicks := 0 }

/-- A client for the C9 witness whose send and confirmation succeed at
once. -/
def clientOk : RPCClientEnv :=
  { sendTransaction := .ok (7, 1)
    getTransactionReceipt := fun _ => .ok (some ⟨some 1, 7, 3⟩)
    confirmTicks := 2 }

/-- Witness for C9: a failing flashbots client falls back to one mainnet
attempt whose (successful) result is final. -/
theorem C9_witness :
    ChallengePokeWithTrace clientOk (some clientSendErr) (.ok [])
      = (challengePokeUsingMainnet clientOk (.ok []),
         [.flashbots, .mainnet])
    ∧ (ChallengePokeWithTrace clientOk (some clientSendErr) (.ok [])).2.count
        .mainnet ≤ 1 :=
  ⟨(C9_fallback_once clientOk (some clientSendErr) (.ok [])).2.2.1
      "failed to send challenge transaction: rejected"
      (Option.some_ne_none _) rfl,
   (C9_fallback_once clientOk (some clientSendErr) (.ok [])).2.2.2.1⟩

/-- A poll answer counts as a confirmation for `WaitForTxConfirmation` when
it is a mined receipt: no fetch error, non-nil receipt, non-nil status and
non-zero transaction hash. -/
def goodPoll (r : Except String (Option TransactionReceipt)) : Prop :=
  ∃ receipt, r = .ok (some receipt)
    ∧ receipt.status ≠ none ∧ receipt.transactionHash ≠ 0

/-- The polling loop of `WaitForTxConfirmation` either times out with the
timeout error after seeing no confirmed receipt, or returns the first
confirmed receipt it sees, with no error. -/
theorem waitLoop_spec (polls : Nat → Except String (Option TransactionReceipt))
    (fuel : Nat) : ∀ i : Nat,
    (waitLoop polls fuel i
        = (none, some "failed to wait for transaction confirmation")
      ∧ ∀ j, i ≤ j → j < i + fuel → ¬ goodPoll (polls j))
    ∨ (∃ receipt j, waitLoop polls fuel i = (some receipt, none)
        ∧ i ≤ j ∧ j < i + fuel ∧ polls j = .ok (some receipt)
        ∧ receipt.status ≠ none ∧ receipt.transactionHash ≠ 0) := by
  induction fuel with
  | zero =>
      intro i
      exact .inl ⟨rfl, by omega⟩
  | succ fuel ih =>
      intro i
      match hp : polls i with
      | .error e =>
          rcases ih (i + 1) with ⟨h1, h2⟩ | ⟨receipt, j, h1, h2, h3, h4, h5, h6⟩
          · refine .inl ⟨by simpa [waitLoop, hp] using h1, ?_⟩
            intro j hij hj
            rcases Nat.eq_or_lt_of_le hij with rfl | hij'
            · simp [goodPoll, hp]
            · exact h2 j hij' (by omega)
          · exact .inr ⟨receipt, j, by simpa [waitLoop, hp] using h1,
              by omega, by omega, h4, h5, h6⟩
      | .ok none =>
          rcases ih (i + 1) with ⟨h1, h2⟩ | ⟨receipt, j, h1, h2, h3, h4, h5, h6⟩
          · refine .inl ⟨by simpa [waitLoop, hp] using h1, ?_⟩
            intro j hij hj
            rcases Nat.eq_or_lt_of_le hij with rfl | hij'
            · simp [goodPoll, hp]
            · exact h2 j hij' (by omega)
          · exact .inr ⟨receipt, j, by simpa [waitLoop, hp] using h1,
              by omega, by omega, h4, h5, h6⟩
      | .ok (some receipt) =>
          by_cases hbad : receipt.status = none ∨ receipt.transactionHash = 0
          · rcases ih (i + 1) with ⟨h1, h2⟩ | ⟨rec2, j, h1, h2, h3, h4, h5, h6⟩
            · refine .inl ⟨by simpa [waitLoop, hp, hbad] using h1, ?_⟩
              intro j hij hj
              rcases Nat.eq_or_lt_of_le hij with rfl | hij'
              · rintro ⟨rec3, hr3, hst, hh⟩
                rw [hp] at hr3
                cases hr3
                rcases hbad with hb | hb
                · exact hst hb
                · exact hh hb
              · exact h2 j hij' (by omega)
            · exact .inr ⟨rec2, j, by simpa [waitLoop, hp, hbad] using h1,
                by omega, by omega, h4, h5, h6⟩
          · push_neg at hbad
            refine .inr ⟨receipt, i, ?_, le_refl i, by omega, hp, hbad.1, hbad.2⟩
            simp [waitLoop, hp, hbad.1, hbad.2]

/-- C10: `WaitForTxConfirmation` never yields a nil receipt together with a
nil error; a nil client or nil hash is an immediate error; if no poll within
the deadline budget returns a mined receipt the result is the timeout error;
and a returned receipt is a mined receipt some poll within the budget
produced. -/
theorem C10_wait_confirmation
    (client : Option (Nat → Except String (Option TransactionReceipt)))
    (txHash : Option Nat) (fuel : Nat) :
    ¬((WaitForTxConfirmation client txHash fuel).1 = none
        ∧ (WaitForTxConfirmation client txHash fuel).2 = none)
    ∧ (client = none →
        WaitForTxConfirmation client txHash fuel
          = (none, some "ethereum client not set"))
    ∧ (client ≠ none → txHash = none →
        WaitForTxConfirmation client txHash fuel
          = (none, some "tx hash is nil"))
    ∧ (∀ polls h, client = some polls → txHash = some h →
        (∀ i, i < fuel → ¬ goodPoll (polls i)) →
        WaitForTxConfirmation client txHash fuel
          = (none, some "failed to wait for transaction confirmation"))
    ∧ (∀ polls h receipt, client = some polls → txHash = some h →
        (WaitForTxConfirmation client txHash fuel).1 = some receipt →
        receipt.status ≠ none ∧ receipt.transactionHash ≠ 0
          ∧ ∃ i, i < fuel ∧ polls i = .ok (some receipt)) := by
  refine ⟨?_, ?_, ?_, ?_, ?_⟩
  · cases client with
    | none => simp [WaitForTxConfirmation]
    | some polls =>
        cases txHash with
        | none => simp [WaitForTxConfirmation]
        | some h =>
            rcases waitLoop_spec polls fuel 0 with ⟨h1, _⟩ |
                ⟨receipt, j, h1, _, _, _, _, _⟩ <;>
              simp [WaitForTxConfirmation, h1]
  · intro hnone
    subst hnone
    rfl
  · intro hcl hnone
    subst hnone
    cases client with
    | none => exact absurd rfl hcl
    | some polls => rfl
  · intro polls h hcl hh hnogood
    subst hcl
    subst hh
    rcases waitLoop_spec polls fuel 0 with ⟨h1, _⟩ |
        ⟨receipt, j, _, _, h3, h4, h5, h6⟩
    · simpa [WaitForTxConfirmation] using h1
    · exact absurd ⟨receipt, h4, h5, h6⟩ (hnogood j (by omega))
  · intro polls h receipt hcl hh hres
    subst hcl
    subst hh
    rcases waitLoop_spec polls fuel 0 with ⟨h1, _⟩ |
        ⟨rec2, j, h1, _, h3, h4, h5, h6⟩
    · rw [show WaitForTxConfirmation (some polls) (some h) fuel
          = waitLoop polls fuel 0 from rfl, h1] at hres
      cases hres
    · rw [show WaitForTxConfirmation (some polls) (some h) fuel
          = waitLoop polls fuel 0 from rfl, h1] at hres
      cases hres
      exact ⟨h5, h6, j, by omega, h4⟩

/-- Poll stream for the C10 witness: an error, then an unmined receipt, then
a mined one. -/
def pollsDemo : Nat → Except String (Option TransactionReceipt)
  | 0 => .error "transient"
  | 1 => .ok (some ⟨none, 5, 3⟩)
  | _ => .ok (some ⟨some 1, 5, 3⟩)

/-- Witness for C10: with the demo poll stream and three ticks of budget,
the returned receipt is mined and was produced by a poll inside the
budget. -/
theorem C10_witness :
    (⟨some 1, 5, 3⟩ : TransactionReceipt).status ≠ none
    ∧ (⟨some 1, 5, 3⟩ : TransactionReceipt).transactionHash ≠ 0
    ∧ ∃ i, i < 3 ∧ pollsDemo i = .ok (some ⟨some 1, 5, 3⟩) :=
  C10_wait_confirmation (some pollsDemo) (some 5) 3 |>.2.2.2.2
    pollsDemo 5 ⟨some 1, 5, 3⟩ rfl rfl (by decide)

/-- A provider environment whose lookups all fail; used where the
per-candidate provider calls are irrelevant. -/
def providerInert : ProviderEnv :=
  { blockByNumber := fun _ => .error "unused"
    isPokeSignatureValid := fun _ => .error "unused" }

/-- Tick responses for the C4 counterexample: the RPC reports latest block
`5` while the cursor already sits at `10`. -/
def envRewind : TickEnv :=
  { blockNumber := .ok (some 5)
    getChallengePeriod := .ok 600
    getPokes := fun _ _ => .ok []
    getSuccessfulChallenges := fun _ _ => .ok []
    provider := providerInert
    now := 0 }

/-- C4 counterexample: `executeTick` assigns the cursor to whatever latest
block number the RPC reports, with no comparison against the current cursor;
when the endpoint reports an older head (here `5` against a cursor of `10`)
the tick succeeds and the cursor moves backwards. So the cursor is not
monotone over every sequence of ticks. -/
theorem C4_counterexample :
    (executeTick envRewind (some 10)).1 = some 5
    ∧ (executeTick envRewind (some 10)).2 = .ok []
    ∧ ¬((10 : Int) ≤ 5) := by
  refine ⟨rfl, rfl, by decide⟩

/-- C4 amended: provided each tick's reported latest block number is at
least the current cursor (the chain head does not move backwards), the
cursor after a tick is at least the cursor before it; and the cursor is
assigned to the latest block number before the successful-challenge fetch,
so a failure of that fetch alone still returns with the cursor advanced to
`latest`. -/
theorem C4_cursor_advances (env : TickEnv) (s : Option Int)
    (hmono : ∀ latest b, env.blockNumber = .ok (some latest) →
        s = some b → b ≤ latest) :
    (∀ b b', s = some b → (executeTick env s).1 = some b' → b ≤ b')
    ∧ (∀ latest period fromB pokes e,
        env.blockNumber = .ok (some latest) →
        env.getChallengePeriod = .ok period →
        getFromBlockNumber s (some latest) period = .ok fromB →
        env.getPokes fromB (some latest) = .ok pokes →
        pokes.length ≠ 0 →
        env.getSuccessfulChallenges fromB (some latest) = .error e →
        (executeTick env s).1 = some latest
          ∧ (executeTick env s).2
            = .error ("failed to get OpPokeChallengedSuccessfully events with error: "
                ++ e)) := by
  constructor
  · intro b b' hs hres
    subst hs
    unfold executeTick at hres
    match hbn : env.blockNumber with
    | .error e =>
        rw [hbn] at hres
        simp only at hres
        cases hres
        exact le_refl b
    | .ok latestBlockNumber =>
        rw [hbn] at hres
        simp only at hres
        match hcp : env.getChallengePeriod with
        | .error e =>
            rw [hcp] at hres
            simp only at hres
            cases hres
            exact le_refl b
        | .ok period =>
            rw [hcp] at hres
            simp only at hres
            have hfrom : getFromBlockNumber (some b) latestBlockNumber period
                = .ok b := rfl
            rw [hfrom] at hres
            simp only at hres
            match hpk : env.getPokes b latestBlockNumber with
            | .error e =>
                rw [hpk] at hres
                simp only at hres
                cases hres
                exact le_refl b
            | .ok pokeLogs =>
                rw [hpk] at hres
                simp only at hres
                have hcursor : (if pokeLogs.length = 0
                    then (latestBlockNumber, (.ok [] : Except String (List OpPokedEvent)))
                    else
                      match env.getSuccessfulChallenges b latestBlockNumber with
                      | .error e => (latestBlockNumber, .error ("failed to get OpPokeChallengedSuccessfully events with error: " ++ e))
                      | .ok challenges =>
                          (latestBlockNumber,
                           .ok ((PickUnchallengedPokes pokeLogs challenges).filter
                             (fun poke => isPokeChallengeable env.provider env.now (some poke) period)))).1
                    = latestBlockNumber := by
                  split
                  · rfl
                  · match env.getSuccessfulChallenges b latestBlockNumber with
                    | .error e => rfl
                    | .ok challenges => rfl
                rw [hcursor] at hres
                subst hres
                exact hmono b' b hbn rfl
  · intro latest period fromB pokes e hbn hcp hfrom hpk hne hsc
    unfold executeTick
    rw [hbn]
    simp only
    rw [hcp]
    simp only
    rw [hfrom]
    simp only
    rw [hpk]
    simp only
    rw [if_neg hne, hsc]
    exact ⟨rfl, rfl⟩

/-- Tick responses for the C4 witness: latest `7`, one poke, and a failing
successful-challenge fetch. -/
def envAdvance : TickEnv :=
  { blockNumber := .ok (some 7)
    getChallengePeriod := .ok 600
    getPokes := fun _ _ => .ok [pokeAt 6]
    getSuccessfulChallenges := fun _ _ => .error "rpc down"
    provider := providerInert
    now := 0 }

/-- Witness for C4 amended: from cursor `3` with latest `7`, the cursor
advances to `7` even though the successful-challenge fetch fails, and the
step is monotone. -/
theorem C4_witness :
    ((3 : Int) ≤ 7 ∧ (executeTick envAdvance (some 3)).1 = some 7) ∧
      (executeTick envAdvance (some 3)).2
        = .error "failed to get OpPokeChallengedSuccessfully events with error: rpc down" :=
  have h := C4_cursor_advances envAdvance (some 3)
    (by
      intro latest b h1 h2
      cases h2
      have : latest = 7 := by
        have := h1
        simp [envAdvance] at this
        omega
      omega)
  have h2 := h.2 7 600 3 [pokeAt 6] "rpc down" rfl rfl rfl rfl
    (by decide) rfl
  ⟨⟨h.1 3 7 rfl h2.1, h2.1⟩, h2.2⟩

/-- The poke elements of a merged event list, in order. -/
def pokesOf (l : List SortableEvent) : List OpPokedEvent :=
  l.filterMap fun e =>
    match e with
    | .poked p => some p
    | .challenged _ => none

@[simp]
theorem pokesOf_nil : pokesOf [] = [] := rfl

@[simp]
theorem pokesOf_poked_cons (p : OpPokedEvent) (l : List SortableEvent) :
    pokesOf (.poked p :: l) = p :: pokesOf l := rfl

@[simp]
theorem pokesOf_challenged_cons (c : OpPokeChallengedSuccessfullyEvent)
    (l : List SortableEvent) : pokesOf (.challenged c :: l) = pokesOf l := rfl

@[simp]
theorem pokesOf_append (l r : List SortableEvent) :
    pokesOf (l ++ r) = pokesOf l ++ pokesOf r := by
  simp [pokesOf]

@[simp]
theorem pokesOf_map_poked (P : List OpPokedEvent) :
    pokesOf (P.map SortableEvent.poked) = P := by
  induction P with
  | nil => rfl
  | cons p P ih => simp [ih]

@[simp]
theorem pokesOf_map_challenged (S : List OpPokeChallengedSuccessfullyEvent) :
    pokesOf (S.map SortableEvent.challenged) = [] := by
  induction S with
  | nil => rfl
  | cons c S ih => simp [ih]

/-- The loop emits a subsequence of the pokes of the merged slice: every
emitted element is a poke, and emitted pokes keep the order they have in the
slice. -/
theorem pickLoop_sublist : ∀ l : List SortableEvent, pickLoop l <+ pokesOf l
  | [] => List.Sublist.refl _
  | .challenged c :: rest => by
      rw [pickLoop, pokesOf_challenged_cons]
      exact pickLoop_sublist rest
  | [.poked p] => by
      rw [pickLoop]
      simp
  | .poked p :: e :: rest => by
      rw [pickLoop, pokesOf_poked_cons]
      split
      · exact (pickLoop_sublist (e :: rest)).cons p
      · exact (pickLoop_sublist (e :: rest)).cons₂ p

theorem eventLe_trans :
    ∀ a b c : SortableEvent, eventLe a b → eventLe b c → eventLe a c := by
  intro a b c hab hbc
  simp only [eventLe, decide_eq_true_eq] at *
  omega

theorem eventLe_total : ∀ a b : SortableEvent, eventLe a b || eventLe b a := by
  intro a b
  simp only [eventLe, Bool.or_eq_true, decide_eq_true_eq]
  omega

/-- A key-sorted event list has its pokes ascending by block number. -/
theorem pokesOf_pairwise : ∀ l : List SortableEvent,
    l.Pairwise (fun a b => eventLe a b = true) →
    (pokesOf l).Pairwise (fun a b => a.blockNumber ≤ b.blockNumber)
  | [], _ => by simp
  | e :: l, h => by
      have hhead := (List.pairwise_cons.mp h).1
      have htail := (List.pairwise_cons.mp h).2
      cases e with
      | challenged c =>
          rw [pokesOf_challenged_cons]
          exact pokesOf_pairwise l htail
      | poked p =>
          rw [pokesOf_poked_cons]
          refine List.pairwise_cons.mpr ⟨?_, pokesOf_pairwise l htail⟩
          intro q hq
          have hmem : SortableEvent.poked q ∈ l := by
            unfold pokesOf at hq
            rcases List.mem_filterMap.mp hq with ⟨e2, he2, hf⟩
            cases e2 with
            | poked p2 =>
                have hpq : p2 = q := by simpa using hf
                subst hpq
                exact he2
            | challenged _ => simp at hf
          have hle := hhead _ hmem
          simpa [eventLe, SortableEvent.GetBlockNumber] using hle

/-- With pairwise distinct keys there is only one sorted arrangement: a
weakly ascending permutation of a strictly ascending poke list is that list
itself. No appeal to sort stability is needed. -/
theorem perm_sorted_strict_eq : ∀ B A : List OpPokedEvent, A ~ B →
    A.Pairwise (fun a b => a.blockNumber ≤ b.blockNumber) →
    B.Pairwise (fun a b => a.blockNumber < b.blockNumber) → A = B
  | [], A, hperm, _, _ => by
      simpa using hperm.eq_nil
  | b :: B2, A, hperm, hA, hB => by
      cases A with
      | nil =>
          have h := hperm.length_eq
          simp at h
      | cons a A2 =>
          have heq : a = b := by
            have haB : a ∈ b :: B2 := hperm.subset (List.mem_cons_self a A2)
            rcases List.mem_cons.mp haB with h1 | h1
            · exact h1
            · have hblt : b.blockNumber < a.blockNumber :=
                (List.pairwise_cons.mp hB).1 a h1
              have hbA : b ∈ a :: A2 :=
                hperm.symm.subset (List.mem_cons_self b B2)
              rcases List.mem_cons.mp hbA with h2 | h2
              · exact h2.symm
              · have hle : a.blockNumber ≤ b.blockNumber :=
                  (List.pairwise_cons.mp hA).1 b h2
                exact absurd (lt_of_lt_of_le hblt hle) (lt_irrefl _)
          subst heq
          have hperm2 : A2 ~ B2 := hperm.cons_inv
          rw [perm_sorted_strict_eq B2 A2 hperm2
            (List.pairwise_cons.mp hA).2 (List.pairwise_cons.mp hB).2]

/-- Sorting contract of `sort.Slice`: the sorted slice is some block-key
ascending permutation of its input, with no stability promised. For pokes
with strictly ascending (hence distinct) block numbers, EVERY such
permutation of the merge lists the pokes in their input order. -/
theorem pokesOf_sorted_perm (P : List OpPokedEvent)
    (S : List OpPokeChallengedSuccessfullyEvent)
    (hP : P.Pairwise (fun a b => a.blockNumber < b.blockNumber))
    (l : List SortableEvent)
    (hperm : l ~ P.map SortableEvent.poked ++ S.map SortableEvent.challenged)
    (hsorted : l.Pairwise (fun a b => eventLe a b = true)) :
    pokesOf l = P := by
  have h1 : pokesOf l ~ P := by
    have h : pokesOf l ~ pokesOf (P.map SortableEvent.poked
        ++ S.map SortableEvent.challenged) := hperm.filterMap _
    simpa using h
  exact perm_sorted_strict_eq P (pokesOf l) h1 (pokesOf_pairwise l hsorted) hP

/-- Pokes filtered out of the merged walk all come from the input pokes. -/
theorem pickLoop_merged_mem (P : List OpPokedEvent)
    (S : List OpPokeChallengedSuccessfullyEvent) :
    ∀ x ∈ pickLoop (sortEvents (P.map SortableEvent.poked
      ++ S.map SortableEvent.challenged)), x ∈ P := by
  intro x hx
  have h1 : x ∈ pokesOf (sortEvents (P.map SortableEvent.poked
      ++ S.map SortableEvent.challenged)) :=
    (pickLoop_sublist _).subset hx
  have hperm := (List.mergeSort_perm
    (P.map SortableEvent.poked ++ S.map SortableEvent.challenged)
    eventLe).filterMap fun e =>
      match e with
      | .poked p => some p
      | .challenged _ => none
  have h2 : x ∈ pokesOf (P.map SortableEvent.poked
      ++ S.map SortableEvent.challenged) := by
    have hmem := hperm.mem_iff (a := x)
    unfold pokesOf at h1 ⊢
    unfold sortEvents at h1
    exact hmem.mp h1
  simpa using h2

unseal List.merge List.mergeSort in
/-- C6 counterexample: with pokes given out of block order,
`PickUnchallengedPokes [P@20, P@10] [S@5]` returns `[P@10, P@20]` — both
input pokes, but in block order rather than input order — so the returned
order does not match the pokes' input order. -/
theorem C6_counterexample :
    PickUnchallengedPokes [pokeAt 20, pokeAt 10] [challAt 5]
      = [pokeAt 10, pokeAt 20]
    ∧ [pokeAt 10, pokeAt 20] ≠ [pokeAt 20, pokeAt 10]
    ∧ ¬([pokeAt 10, pokeAt 20] <+ [pokeAt 20, pokeAt 10]) := by
  decide

/-- C6 amended: `PickUnchallengedPokes [] S = []` and
`PickUnchallengedPokes P [] = P`; every returned poke is one of the input
pokes; and when the input pokes have strictly ascending block numbers
(distinct blocks, the data-model assumption, as the block-ordered log
queries deliver them) the result preserves their input order. The order
conclusion is proved for EVERY block-sorted permutation of the merged slice
that the walk may receive — the full contract of Go's `sort.Slice`, which
promises sortedness but not stability — and in particular for the sorted
slice of the function itself. For out-of-order inputs the result follows
block order instead, as the counterexample shows. -/
theorem C6_filter_algebra (P : List OpPokedEvent)
    (S : List OpPokeChallengedSuccessfullyEvent) :
    PickUnchallengedPokes [] S = []
    ∧ PickUnchallengedPokes P [] = P
    ∧ (∀ x ∈ PickUnchallengedPokes P S, x ∈ P)
    ∧ (P.Pairwise (fun a b => a.blockNumber < b.blockNumber) →
        (∀ l, l ~ P.map SortableEvent.poked ++ S.map SortableEvent.challenged →
            l.Pairwise (fun a b => eventLe a b = true) →
            pickLoop l <+ P)
        ∧ PickUnchallengedPokes P S <+ P) := by
  refine ⟨by simp [PickUnchallengedPokes], by simp [PickUnchallengedPokes],
    ?_, ?_⟩
  · intro x hx
    unfold PickUnchallengedPokes at hx
    by_cases hempty : P.length = 0 ∨ S.length = 0
    · rw [if_pos hempty] at hx
      exact hx
    · rw [if_neg hempty] at hx
      cases P with
      | nil => exact absurd (Or.inl rfl) hempty
      | cons p rest =>
          cases rest with
          | nil =>
              have hx2 : x ∈ (if (S.any fun c =>
                  decide (c.blockNumber < p.blockNumber)) = true
                then ([] : List OpPokedEvent) else [p]) := hx
              by_cases hany : (S.any fun c =>
                  decide (c.blockNumber < p.blockNumber)) = true
              · rw [if_pos hany] at hx2
                cases hx2
              · rw [if_neg hany] at hx2
                simpa using hx2
          | cons q rest2 =>
              exact pickLoop_merged_mem (p :: q :: rest2) S x hx
  · intro hP
    have hgen : ∀ l, l ~ P.map SortableEvent.poked
        ++ S.map SortableEvent.challenged →
        l.Pairwise (fun a b => eventLe a b = true) →
        pickLoop l <+ P := by
      intro l hperm hsorted
      have hres := pickLoop_sublist l
      rwa [pokesOf_sorted_perm P S hP l hperm hsorted] at hres
    refine ⟨hgen, ?_⟩
    unfold PickUnchallengedPokes
    by_cases hempty : P.length = 0 ∨ S.length = 0
    · rw [if_pos hempty]
    · rw [if_neg hempty]
      cases P with
      | nil => exact absurd (Or.inl rfl) hempty
      | cons p rest =>
          cases rest with
          | nil =>
              show (if (S.any fun c =>
                  decide (c.blockNumber < p.blockNumber)) = true
                then ([] : List OpPokedEvent) else [p]) <+ [p]
              by_cases hany : (S.any fun c =>
                  decide (c.blockNumber < p.blockNumber)) = true
              · rw [if_pos hany]
                exact List.nil_sublist _
              · rw [if_neg hany]
          | cons q rest2 =>
              exact hgen (sortEvents ((p :: q :: rest2).map SortableEvent.poked
                  ++ S.map SortableEvent.challenged))
                (List.mergeSort_perm _ eventLe)
                (List.sorted_mergeSort eventLe_trans eventLe_total _)

/-- Witness for C6 amended, at strictly block-ascending pokes `[P@1, P@2]`
against `[S@1]`: the identities, and the order-preserving sublist
conclusion — both for the function itself and for a concrete block-sorted
permutation of the merge in which the unstable sort could have placed the
same-block success BEFORE its poke. -/
theorem C6_witness :
    PickUnchallengedPokes [] [challAt 1] = []
    ∧ PickUnchallengedPokes [pokeAt 1, pokeAt 2] [] = [pokeAt 1, pokeAt 2]
    ∧ PickUnchallengedPokes [pokeAt 1, pokeAt 2] [challAt 1]
        <+ [pokeAt 1, pokeAt 2]
    ∧ pickLoop [.challenged (challAt 1), .poked (pokeAt 1), .poked (pokeAt 2)]
        <+ [pokeAt 1, pokeAt 2] :=
  ⟨(C6_filter_algebra [pokeAt 1, pokeAt 2] [challAt 1]).1,
   (C6_filter_algebra [pokeAt 1, pokeAt 2] [challAt 1]).2.1,
   ((C6_filter_algebra [pokeAt 1, pokeAt 2] [challAt 1]).2.2.2 (by decide)).2,
   ((C6_filter_algebra [pokeAt 1, pokeAt 2] [challAt 1]).2.2.2 (by decide)).1
     [.challenged (challAt 1), .poked (pokeAt 1), .poked (pokeAt 2)]
     (by decide) (by decide)⟩

end ChallengerCore
